import Mathlib

/-!
Verification of the baseline-training orchestration script
(`src/experiments/02_baseline_training.py`).

The script is glue code: it sequences calls to opaque collaborators
(`NSLKDDAnalyzer`, `NSLKDDPreprocessor`, `CICIDSPreprocessor`,
`BaselineModels`, sklearn's `train_test_split`), handles exceptions at the
procedure boundary, and persists artefacts.  We embed the two procedure
functions, `main`, and the process exit code as Lean functions parameterised
by an environment that gives an arbitrary behaviour to every collaborator
call (`Except Exn` models a Python call that either returns or raises).
Every run also produces an event trace recording the collaborator calls the
script makes, which lets us state which calls happen and with which
arguments.
-/

namespace BaselineTraining

/-- Python exceptions as observed by the script: `ImportError` is caught
separately at the import site; every other exception is modelled by
`runtime`. -/
inductive Exn where
  | importError (msg : String)
  | runtime (msg : String)
  deriving DecidableEq

/-- Observable events of a run: collaborator calls with their arguments,
plus the console markers the claims refer to.  Directory arguments are
modelled as path-segment lists. -/
inductive Event where
  | sep (title : String)
  | importFailed
  | loadCall (file : String)
  | splitCall (num den seed n : Nat)
  | trainAllCall (nRows : Nat) (excluded : List String)
  | evaluateAllCall (rows : Nat)
  | evaluateModelCall (name : String)
  | metricPrinted (metric : String) (isNan : Bool)
  | saveModelsCall (dir : List String) (resultsDir : List String) (sfx : String)
  | preSaveCall (path : List String)
  | tracebackPrinted
  | statusPrinted (nslOk cicOk : Bool)
  deriving DecidableEq

/-- One row of the validation leaderboard returned by `evaluate_all`
(the columns the script reads). -/
structure Row (V : Type) where
  model_name : String
  accuracy : V
  f1_score : V
  /-- the `precision` column (`precision` is a Lean keyword). -/
  prec : V
  /-- the `recall` column (`recall` is a Mathlib command keyword). -/
  rcall : V
  deriving DecidableEq

/-- The four metric keys the script reads from a metric record. -/
def metricNames : List String := ["accuracy", "f1_score", "precision", "recall"]

/-- The metric-printing loop: `value = test_metrics.get(metric, float("nan"))`.
A missing key substitutes NaN (recorded as `isNan = true`) and printing
continues; no exception is possible here. -/
def metricLoop {V : Type} (mrec : List (String × V)) : List Event :=
  metricNames.map fun m => Event.metricPrinted m (mrec.lookup m |>.isNone)

/-- Path of the script file relative to the repository root
(`__file__` resolved). -/
def filePathSegs : List String := ["src", "experiments", "02_baseline_training.py"]

/-- `Path(p).parents[1]`: the grandparent directory. -/
def parents1 (p : List String) : List String := p.dropLast.dropLast

/-- `PROJECT_ROOT = Path(__file__).resolve().parents[1]`. -/
def PROJECT_ROOT : List String := parents1 filePathSegs

def nslModelsDir : List String := PROJECT_ROOT ++ ["data", "models", "baseline"]
def nslResultsDir : List String := PROJECT_ROOT ++ ["data", "results", "nsl"]
def cicModelsDir : List String := PROJECT_ROOT ++ ["data", "models", "cic_baseline"]
def cicResultsDir : List String := PROJECT_ROOT ++ ["data", "results", "cic"]
def nslPrePath : List String := nslModelsDir ++ ["nsl_preprocessor.pkl"]

def nslTitle : String := "NSL-KDD Baseline Training"
def cicTitle : String := "CIC-IDS-2017 Baseline Training"

/-- Run one collaborator call inside a `try` block: `pre` are the events the
call emits, `r` its outcome; a raise propagates (to be caught at the
procedure boundary), a normal return continues with `k`. -/
def step {α : Type} (pre : List Event) (r : Except Exn α)
    (k : α → Except Exn Bool × List Event) : Except Exn Bool × List Event :=
  match r with
  | .error e => (.error e, pre)
  | .ok a => ((k a).1, pre ++ (k a).2)

/-- Like `step`, but the emitted events depend on the returned value
(used for `evaluate_all`, whose event records the leaderboard size). -/
def stepR {α : Type} (r : Except Exn α) (ev : α → List Event)
    (k : α → Except Exn Bool × List Event) : Except Exn Bool × List Event :=
  match r with
  | .error e => (.error e, [])
  | .ok a => ((k a).1, ev a ++ (k a).2)

theorem step_err {α : Type} (pre : List Event) (e : Exn)
    (k : α → Except Exn Bool × List Event) :
    step pre (Except.error e) k = (Except.error e, pre) := rfl

theorem step_ok {α : Type} (pre : List Event) (a : α)
    (k : α → Except Exn Bool × List Event) :
    step pre (Except.ok a) k = ((k a).1, pre ++ (k a).2) := rfl

theorem stepR_err {α : Type} (e : Exn) (ev : α → List Event)
    (k : α → Except Exn Bool × List Event) :
    stepR (Except.error e) ev k = (Except.error e, []) := rfl

theorem stepR_ok {α : Type} (a : α) (ev : α → List Event)
    (k : α → Except Exn Bool × List Event) :
    stepR (Except.ok a) ev k = ((k a).1, ev a ++ (k a).2) := rfl

/-- Behaviour of every collaborator call made by `train_nsl_kdd_baseline`.
`D` is the opaque dataset handle, `X` a feature row, `Y` a label, `V` a
metric value.  Each field models one call site; `Except Exn` lets every
call raise. -/
structure NslEnv (D X Y V : Type) where
  /-- outcome of `from src... import ...`: `some msg` is an `ImportError`. -/
  importResult : Option String
  /-- `NSLKDDAnalyzer()` constructor. -/
  analyzerInit : Except Exn Unit
  /-- `analyzer.load_data(file)`; `none` inside `ok` is Python `None`. -/
  load : String → Except Exn (Option D)
  /-- `NSLKDDPreprocessor(balance_method="undersample")` constructor. -/
  preInit : Except Exn Unit
  /-- `preprocessor.fit_transform(train_data)` returning
  `(X_train, X_val, y_train, y_val)`. -/
  fit_transform : D → Except Exn (List X × List X × List Y × List Y)
  /-- `preprocessor.transform(test_data)` returning `(X_test, y_test)`. -/
  transform : D → Except Exn (List X × List Y)
  /-- `BaselineModels()` constructor. -/
  baselineInit : Except Exn Unit
  /-- `baseline.train_all(X, y, exclude_models=...)`. -/
  train_all : List X → List Y → List String → Except Exn Unit
  /-- `baseline.evaluate_all(X, y)` returning the validation leaderboard. -/
  evaluate_all : List X → List Y → Except Exn (List (Row V))
  /-- `baseline.evaluate_model(name, X, y)` returning a metric record. -/
  evaluate_model : String → List X → List Y → Except Exn (List (String × V))
  /-- `baseline.save_models(models_dir, results_dir, dataset_suffix)`. -/
  save_models : List String → List String → String → Except Exn Unit
  /-- `preprocessor.save(path)`. -/
  preSave : List String → Except Exn Unit

/-- Behaviour of every collaborator call made by `train_cic_baseline`. -/
structure CicEnv (D X Y V : Type) where
  /-- outcome of `from src... import ...`: `some msg` is an `ImportError`. -/
  importResult : Option String
  /-- `CICIDSPreprocessor()` constructor — called OUTSIDE the try block. -/
  preInit : Except Exn Unit
  /-- `preprocessor.load_data(use_full_dataset=True)`. -/
  load : Except Exn (Option D)
  /-- `preprocessor.fit_transform(cic_data)` returning `(X_full, y_full)`. -/
  fit_transform : D → Except Exn (List X × List Y)
  /-- `train_test_split(X, y, test_size=num/den, random_state=seed,
  stratify=y)` returning `(X_train, X_test, y_train, y_test)`. -/
  split : Nat → Nat → Nat → List X → List Y →
    Except Exn (List X × List X × List Y × List Y)
  /-- `BaselineModels()` constructor. -/
  baselineInit : Except Exn Unit
  /-- `baseline.train_all(X, y, exclude_models=...)`. -/
  train_all : List X → List Y → List String → Except Exn Unit
  /-- `baseline.evaluate_all(X, y)` returning the validation leaderboard. -/
  evaluate_all : List X → List Y → Except Exn (List (Row V))
  /-- `baseline.evaluate_model(name, X, y)` returning a metric record. -/
  evaluate_model : String → List X → List Y → Except Exn (List (String × V))
  /-- `baseline.save_models(models_dir, results_dir, dataset_suffix)`. -/
  save_models : List String → List String → String → Except Exn Unit

/-- Lines 49–77 of the NSL procedure, from `BaselineModels()` onward
(shared tail: train, validate, pick first leaderboard row, test-evaluate,
persist). -/
def nslTrain {D X Y V : Type} (env : NslEnv D X Y V)
    (X_train : List X) (y_train : List Y) (X_val : List X) (y_val : List Y)
    (X_test : List X) (y_test : List Y) : Except Exn Bool × List Event :=
  step [] env.baselineInit fun _ =>
  step [Event.trainAllCall X_train.length
          (if 5000 < X_train.length then ["svm_linear"] else [])]
    (env.train_all X_train y_train
      (if 5000 < X_train.length then ["svm_linear"] else [])) fun _ =>
  stepR (env.evaluate_all X_val y_val)
    (fun lb => [Event.evaluateAllCall lb.length]) fun lb =>
  match lb with
  | [] => (.ok false, [])
  | best :: _ =>
    step [Event.evaluateModelCall best.model_name]
      (env.evaluate_model best.model_name X_test y_test) fun mrec =>
    step (metricLoop mrec ++ [Event.saveModelsCall nslModelsDir nslResultsDir "_nsl"])
      (env.save_models nslModelsDir nslResultsDir "_nsl") fun _ =>
    step [Event.preSaveCall nslPrePath] (env.preSave nslPrePath) fun _ =>
    (.ok true, [])

/-- The body of the NSL procedure's `try` block (lines 35–77).  A raised
exception propagates out of this function as `.error`, to be caught by the
procedure wrapper. -/
def nslTryBody {D X Y V : Type} (env : NslEnv D X Y V) :
    Except Exn Bool × List Event :=
  step [] env.analyzerInit fun _ =>
  step [Event.loadCall "KDDTrain+.txt"] (env.load "KDDTrain+.txt") fun td =>
  step [Event.loadCall "KDDTest+.txt"] (env.load "KDDTest+.txt") fun sd =>
  match td, sd with
  | some train_data, some test_data =>
    step [] env.preInit fun _ =>
    step [] (env.fit_transform train_data) fun q =>
    step [] (env.transform test_data) fun p =>
    nslTrain env q.1 q.2.2.1 q.2.1 q.2.2.2 p.1 p.2
  | _, _ => (.ok false, [])

/-- `train_nsl_kdd_baseline` (lines 23–81): separator print, guarded
imports, then the try block whose exceptions are caught and converted to
`False` with a printed traceback. -/
def train_nsl_kdd_baseline {D X Y V : Type} (env : NslEnv D X Y V) :
    Except Exn Bool × List Event :=
  match env.importResult with
  | some _ => (.ok false, [Event.sep nslTitle, Event.importFailed])
  | none =>
    match nslTryBody env with
    | (.ok b, tr) => (.ok b, Event.sep nslTitle :: tr)
    | (.error _, tr) =>
        (.ok false, Event.sep nslTitle :: (tr ++ [Event.tracebackPrinted]))

/-- Lines 124–151 of the CIC procedure, from `BaselineModels()` onward. -/
def cicTrain {D X Y V : Type} (env : CicEnv D X Y V)
    (X_train : List X) (y_train : List Y) (X_val : List X) (y_val : List Y)
    (X_test : List X) (y_test : List Y) : Except Exn Bool × List Event :=
  step [] env.baselineInit fun _ =>
  step [Event.trainAllCall X_train.length
          (if 10000 < X_train.length then ["svm_linear", "knn"] else [])]
    (env.train_all X_train y_train
      (if 10000 < X_train.length then ["svm_linear", "knn"] else [])) fun _ =>
  stepR (env.evaluate_all X_val y_val)
    (fun lb => [Event.evaluateAllCall lb.length]) fun lb =>
  match lb with
  | [] => (.ok false, [])
  | best :: _ =>
    step [Event.evaluateModelCall best.model_name]
      (env.evaluate_model best.model_name X_test y_test) fun mrec =>
    step (metricLoop mrec ++ [Event.saveModelsCall cicModelsDir cicResultsDir "_cic"])
      (env.save_models cicModelsDir cicResultsDir "_cic") fun _ =>
    (.ok true, [])

/-- The body of the CIC procedure's `try` block (lines 98–151): load the
full dataset, fit-transform, two sequential stratified splits
(`test_size=0.4` then `0.5`, both `random_state=42`), then the shared
training tail. -/
def cicTryBody {D X Y V : Type} (env : CicEnv D X Y V) :
    Except Exn Bool × List Event :=
  step [Event.loadCall "cic_full"] env.load fun cd =>
  match cd with
  | none => (.ok false, [])
  | some cic_data =>
    step [] (env.fit_transform cic_data) fun fl =>
    step [Event.splitCall 2 5 42 fl.1.length]
      (env.split 2 5 42 fl.1 fl.2) fun s1 =>
    step [Event.splitCall 1 2 42 s1.2.1.length]
      (env.split 1 2 42 s1.2.1 s1.2.2.2) fun s2 =>
    cicTrain env s1.1 s1.2.2.1 s2.1 s2.2.2.1 s2.2.1 s2.2.2.2

/-- `train_cic_baseline` (lines 84–155).  Note the faithful asymmetry with
the NSL procedure: `CICIDSPreprocessor()` (line 96) runs outside the try
block, so an exception it raises escapes the procedure. -/
def train_cic_baseline {D X Y V : Type} (env : CicEnv D X Y V) :
    Except Exn Bool × List Event :=
  match env.importResult with
  | some _ => (.ok false, [Event.sep cicTitle, Event.importFailed])
  | none =>
    match env.preInit with
    | .error e => (.error e, [Event.sep cicTitle])
    | .ok _ =>
      match cicTryBody env with
      | (.ok b, tr) => (.ok b, Event.sep cicTitle :: tr)
      | (.error _, tr) =>
          (.ok false, Event.sep cicTitle :: (tr ++ [Event.tracebackPrinted]))

/-- `main` (lines 158–175): run the NSL procedure, then the CIC procedure,
print the combined status, return the conjunction.  An uncaught exception
from a procedure propagates. -/
def main {D X Y V : Type} (envN : NslEnv D X Y V) (envC : CicEnv D X Y V) :
    Except Exn Bool × List Event :=
  match train_nsl_kdd_baseline envN with
  | (.error e, tn) => (.error e, tn)
  | (.ok bn, tn) =>
    match train_cic_baseline envC with
    | (.error e, tc) => (.error e, tn ++ tc)
    | (.ok bc, tc) => (.ok (bn && bc), tn ++ tc ++ [Event.statusPrinted bn bc])

/-- `sys.exit(0 if main() else 1)` (line 179); an unhandled exception makes
CPython exit with status 1 as well. -/
def exitCode (r : Except Exn Bool) : Nat :=
  match r with
  | .ok true => 0
  | .ok false => 1
  | .error _ => 1

/-- `⌈a / b⌉` on naturals. -/
def ceilDiv (a b : Nat) : Nat := (a + b - 1) / b

/-- Modelled from the spec: contract of the external stratified splitter
(sklearn's `train_test_split` with `test_size = num/den`, `stratify = y`),
which is out of scope of the shown file.  The spec describes it as a
"stratified train/test split with explicit test fraction and fixed random
seed" that "preserves class proportions".  For an outcome
`o = (X_train, X_test, y_train, y_test)`: the parts partition the input,
features and labels stay aligned in length, the test part has
`⌈(num/den) · n⌉` rows, output labels come from the input labels, each
class's rows are split between the parts, and each class's test count is
within one row of the exact fraction `(num/den)` of its total
(scaled: `|den·test_c − num·total_c| ≤ den`). -/
def stratified {X Y : Type} [DecidableEq Y] (num den : Nat)
    (xs : List X) (ys : List Y)
    (o : List X × List X × List Y × List Y) : Prop :=
  o.1.length + o.2.1.length = xs.length ∧
  o.2.2.1.length + o.2.2.2.length = ys.length ∧
  o.1.length = o.2.2.1.length ∧
  o.2.1.length = o.2.2.2.length ∧
  o.2.1.length = ceilDiv (num * xs.length) den ∧
  (∀ c ∈ o.2.2.1, c ∈ ys) ∧
  (∀ c ∈ o.2.2.2, c ∈ ys) ∧
  (∀ c ∈ ys, o.2.2.1.count c + o.2.2.2.count c = ys.count c) ∧
  (∀ c ∈ ys, num * ys.count c ≤ den * o.2.2.2.count c + den ∧
    den * o.2.2.2.count c ≤ num * ys.count c + den)

instance {X Y : Type} [DecidableEq Y] (num den : Nat)
    (xs : List X) (ys : List Y) (o : List X × List X × List Y × List Y) :
    Decidable (stratified num den xs ys o) := by
  unfold stratified
  exact inferInstance

/-- A fully-succeeding behaviour for the NSL collaborators, used to witness
theorems on concrete inputs. -/
def wEnvN : NslEnv Unit Nat Nat Nat where
  importResult := none
  analyzerInit := .ok ()
  load := fun _ => .ok (some ())
  preInit := .ok ()
  fit_transform := fun _ => .ok ([10, 11, 12], [13], [0, 1, 0], [1])
  transform := fun _ => .ok ([14], [1])
  baselineInit := .ok ()
  train_all := fun _ _ _ => .ok ()
  evaluate_all := fun _ _ => .ok [⟨"random_forest", 1, 1, 1, 1⟩]
  evaluate_model := fun _ _ _ => .ok [("accuracy", 1)]
  save_models := fun _ _ _ => .ok ()
  preSave := fun _ => .ok ()

/-- A fully-succeeding behaviour for the CIC collaborators, with a concrete
stratified splitter outcome on a 5-row dataset. -/
def wEnvC : CicEnv Unit Nat Nat Nat where
  importResult := none
  preInit := .ok ()
  load := .ok (some ())
  fit_transform := fun _ => .ok ([0, 1, 2, 3, 4], [0, 0, 0, 1, 1])
  split := fun num _ _ _ _ =>
    if num = 2 then .ok ([0, 1, 3], [2, 4], [0, 0, 1], [0, 1])
    else .ok ([2], [4], [0], [1])
  baselineInit := .ok ()
  train_all := fun _ _ _ => .ok ()
  evaluate_all := fun _ _ => .ok [⟨"random_forest", 1, 1, 1, 1⟩]
  evaluate_model := fun _ _ _ => .ok [("accuracy", 1)]
  save_models := fun _ _ _ => .ok ()

/-- A CIC behaviour whose `CICIDSPreprocessor()` constructor raises. -/
def badCicEnv : CicEnv Unit Nat Nat Nat :=
  { wEnvC with preInit := .error (Exn.runtime "constructor failed") }

/-- The NSL procedure returns a boolean for every collaborator behaviour:
its whole body after the import guard sits inside `try/except Exception`. -/
theorem nsl_returns_ok {D X Y V : Type} (env : NslEnv D X Y V) :
    ∃ b, (train_nsl_kdd_baseline env).1 = Except.ok b := by
  unfold train_nsl_kdd_baseline
  cases env.importResult with
  | some m => exact ⟨false, rfl⟩
  | none =>
    rcases h : nslTryBody env with ⟨r, tr⟩
    cases r with
    | error e => exact ⟨false, rfl⟩
    | ok b => exact ⟨b, rfl⟩

/-- The CIC procedure returns a boolean provided its preprocessor
constructor (the one call outside the try block) does not raise. -/
theorem cic_returns_ok {D X Y V : Type} (env : CicEnv D X Y V)
    (hpre : env.preInit = Except.ok ()) :
    ∃ b, (train_cic_baseline env).1 = Except.ok b := by
  unfold train_cic_baseline
  cases env.importResult with
  | some m => exact ⟨false, rfl⟩
  | none =>
    rw [hpre]
    rcases h : cicTryBody env with ⟨r, tr⟩
    cases r with
    | error e => exact ⟨false, rfl⟩
    | ok b => exact ⟨b, rfl⟩

/-- The NSL procedure's trace always starts with its separator line. -/
theorem nsl_trace_head {D X Y V : Type} (env : NslEnv D X Y V) :
    ∃ tr, (train_nsl_kdd_baseline env).2 = Event.sep nslTitle :: tr := by
  unfold train_nsl_kdd_baseline
  cases env.importResult with
  | some m => exact ⟨_, rfl⟩
  | none =>
    rcases h : nslTryBody env with ⟨r, tr⟩
    cases r with
    | error e => exact ⟨_, rfl⟩
    | ok b => exact ⟨_, rfl⟩

/-- The CIC procedure's trace always starts with its separator line. -/
theorem cic_trace_head {D X Y V : Type} (env : CicEnv D X Y V) :
    ∃ tr, (train_cic_baseline env).2 = Event.sep cicTitle :: tr := by
  unfold train_cic_baseline
  cases env.importResult with
  | some m => exact ⟨_, rfl⟩
  | none =>
    cases env.preInit with
    | error e => exact ⟨_, rfl⟩
    | ok u =>
      rcases h : cicTryBody env with ⟨r, tr⟩
      cases r with
      | error e => exact ⟨_, rfl⟩
      | ok b => exact ⟨_, rfl⟩

/-- C1 (counterexample): the claim "each of the two procedure functions
returns a boolean and never lets an exception escape its own scope,
including when a collaborator constructor raises" is false for
`train_cic_baseline`: the `CICIDSPreprocessor()` constructor (line 96)
runs outside the try block, so when it raises, the exception escapes the
procedure and reaches `main`. -/
theorem C1_counterexample :
    (train_cic_baseline badCicEnv).1 = Except.error (Exn.runtime "constructor failed") ∧
    (∀ b, (train_cic_baseline badCicEnv).1 ≠ Except.ok b) ∧
    (main wEnvN badCicEnv).1 = Except.error (Exn.runtime "constructor failed") := by
  refine ⟨rfl, ?_, rfl⟩
  intro b h
  rw [show (train_cic_baseline badCicEnv).1
        = Except.error (Exn.runtime "constructor failed") from rfl] at h
  exact Except.noConfusion h

/-- C1 (amended): the NSL procedure always returns a boolean; the CIC
procedure returns a boolean whenever the `CICIDSPreprocessor()` constructor
does not raise, but when the imports succeed and that constructor raises,
the exception escapes the procedure unchanged; `main` observes booleans
whenever that constructor does not raise. -/
theorem C1_exception_containment :
    ∀ (D X Y V : Type),
    (∀ env : NslEnv D X Y V, ∃ b, (train_nsl_kdd_baseline env).1 = Except.ok b) ∧
    (∀ env : CicEnv D X Y V, env.preInit = Except.ok () →
      ∃ b, (train_cic_baseline env).1 = Except.ok b) ∧
    (∀ (env : CicEnv D X Y V) (e : Exn), env.importResult = none →
      env.preInit = Except.error e → (train_cic_baseline env).1 = Except.error e) ∧
    (∀ (envN : NslEnv D X Y V) (envC : CicEnv D X Y V),
      envC.preInit = Except.ok () → ∃ b, (main envN envC).1 = Except.ok b) := by
  intro D X Y V
  refine ⟨nsl_returns_ok, cic_returns_ok, ?_, ?_⟩
  · intro env e himp hpre
    unfold train_cic_baseline
    rw [himp, hpre]
  · intro envN envC hpre
    obtain ⟨bn, hbn⟩ := nsl_returns_ok envN
    obtain ⟨bc, hbc⟩ := cic_returns_ok envC hpre
    unfold main
    rcases hN : train_nsl_kdd_baseline envN with ⟨rn, tn⟩
    rcases hC : train_cic_baseline envC with ⟨rc, tc⟩
    rw [hN] at hbn
    rw [hC] at hbc
    simp only at hbn hbc
    rw [hbn, hbc]
    exact ⟨bn && bc, rfl⟩

/-- C1 (witness): at the concrete fully-succeeding behaviours, the amended
containment theorem applies and yields booleans. -/
theorem C1_witness :
    ∃ b, (main wEnvN wEnvC).1 = Except.ok b :=
  (C1_exception_containment Unit Nat Nat Nat).2.2.2 wEnvN wEnvC rfl

/-- C2: `main` runs the NSL procedure and then the CIC procedure — the CIC
trace follows the NSL trace in `main`'s trace for every behaviour,
including failing NSL runs — `main` returns `True` iff both procedures
return `True`, and the exit code is `0` iff `main` returns `True`, else
`1`. -/
theorem C2_main_sequencing :
    ∀ (D X Y V : Type) (envN : NslEnv D X Y V) (envC : CicEnv D X Y V),
    (∃ rest, (main envN envC).2
      = (train_nsl_kdd_baseline envN).2 ++ ((train_cic_baseline envC).2 ++ rest)) ∧
    (∃ tn, (train_nsl_kdd_baseline envN).2 = Event.sep nslTitle :: tn) ∧
    (∃ tc, (train_cic_baseline envC).2 = Event.sep cicTitle :: tc) ∧
    ((main envN envC).1 = Except.ok true ↔
      ((train_nsl_kdd_baseline envN).1 = Except.ok true ∧
       (train_cic_baseline envC).1 = Except.ok true)) ∧
    (exitCode (main envN envC).1 = 0 ↔ (main envN envC).1 = Except.ok true) ∧
    (exitCode (main envN envC).1 = 0 ∨ exitCode (main envN envC).1 = 1) := by
  intro D X Y V envN envC
  obtain ⟨bn, hbn⟩ := nsl_returns_ok envN
  refine ⟨?_, nsl_trace_head envN, cic_trace_head envC, ?_, ?_, ?_⟩
  · unfold main
    rcases hN : train_nsl_kdd_baseline envN with ⟨rn, tn⟩
    rw [hN] at hbn
    simp only at hbn
    rw [hbn]
    rcases hC : train_cic_baseline envC with ⟨rc, tc⟩
    cases rc with
    | error e => exact ⟨[], by simp⟩
    | ok bc => exact ⟨[Event.statusPrinted bn bc], by simp⟩
  · unfold main
    rcases hN : train_nsl_kdd_baseline envN with ⟨rn, tn⟩
    rw [hN] at hbn
    simp only at hbn
    rw [hbn]
    rcases hC : train_cic_baseline envC with ⟨rc, tc⟩
    cases rc with
    | error e =>
      simp only
      constructor
      · intro h
        exact absurd h (by intro h; exact Except.noConfusion h)
      · rintro ⟨h1, h2⟩
        exact absurd h2 (by intro h; exact Except.noConfusion h)
    | ok bc =>
      simp only
      constructor
      · intro h
        have : (bn && bc) = true := by
          have := Except.ok.inj h
          exact this
        rcases Bool.and_eq_true_iff.mp this with ⟨h1, h2⟩
        subst h1; subst h2
        exact ⟨rfl, rfl⟩
      · rintro ⟨h1, h2⟩
        have hb1 : bn = true := Except.ok.inj h1
        have hb2 : bc = true := Except.ok.inj h2
        subst hb1; subst hb2
        rfl
  · rcases hM : (main envN envC).1 with e | b
    · unfold exitCode
      constructor
      · intro h; exact absurd h (by simp)
      · intro h; exact absurd h (by intro h; exact Except.noConfusion h)
    · cases b with
      | true => simp [exitCode]
      | false =>
        unfold exitCode
        constructor
        · intro h; exact absurd h (by simp)
        · intro h
          exact absurd (Except.ok.inj h) (by simp)
  · rcases hM : (main envN envC).1 with e | b
    · right; rfl
    · cases b
      · right; rfl
      · left; rfl

/-- Trace characterisation of the shared NSL training tail: every event it
emits is one of the recorded collaborator calls, with its arguments pinned
by the collaborator outcomes along the way. -/
theorem mem_nslTrain {D X Y V : Type} (env : NslEnv D X Y V)
    (a c p1 : List X) (b d p2 : List Y) (e : Event)
    (h : e ∈ (nslTrain env a b c d p1 p2).2) :
    e = Event.trainAllCall a.length (if 5000 < a.length then ["svm_linear"] else []) ∨
    (∃ lb, env.evaluate_all c d = Except.ok lb ∧ e = Event.evaluateAllCall lb.length) ∨
    (∃ best rest, env.evaluate_all c d = Except.ok (best :: rest) ∧
      (e = Event.evaluateModelCall best.model_name ∨
       (∃ mrec, env.evaluate_model best.model_name p1 p2 = Except.ok mrec ∧ e ∈ metricLoop mrec) ∨
       e = Event.saveModelsCall nslModelsDir nslResultsDir "_nsl" ∨
       e = Event.preSaveCall nslPrePath)) := by
  unfold nslTrain at h
  rcases h1 : env.baselineInit with e1 | u1
  · rw [h1, step_err] at h; simp at h
  · rw [h1, step_ok] at h
    rcases h2 : env.train_all a b (if 5000 < a.length then ["svm_linear"] else []) with e2 | u2
    · rw [h2, step_err] at h
      simp only [List.nil_append, List.mem_singleton] at h
      exact Or.inl h
    · rw [h2, step_ok] at h
      simp only [List.nil_append, List.mem_append, List.mem_singleton] at h
      rcases h with h | h
      · exact Or.inl h
      · rcases h3 : env.evaluate_all c d with e3 | lb
        · rw [h3, stepR_err] at h; simp at h
        · rw [h3, stepR_ok] at h
          simp only [List.mem_append, List.mem_singleton] at h
          rcases h with h | h
          · exact Or.inr (Or.inl ⟨lb, rfl, h⟩)
          · cases lb with
            | nil => simp at h
            | cons best rest =>
              simp only [] at h
              rcases h4 : env.evaluate_model best.model_name p1 p2 with e4 | mrec
              · rw [h4, step_err] at h
                simp only [List.mem_singleton] at h
                exact Or.inr (Or.inr ⟨best, rest, rfl, Or.inl h⟩)
              · rw [h4, step_ok] at h
                simp only [List.mem_append, List.mem_singleton] at h
                rcases h with h | h
                · exact Or.inr (Or.inr ⟨best, rest, rfl, Or.inl h⟩)
                · rcases h5 : env.save_models nslModelsDir nslResultsDir "_nsl" with e5 | u5
                  · rw [h5, step_err] at h
                    simp only [List.mem_append, List.mem_singleton] at h
                    rcases h with h | h
                    · exact Or.inr (Or.inr ⟨best, rest, rfl, Or.inr (Or.inl ⟨mrec, h4, h⟩)⟩)
                    · exact Or.inr (Or.inr ⟨best, rest, rfl, Or.inr (Or.inr (Or.inl h))⟩)
                  · rw [h5, step_ok] at h
                    simp only [List.mem_append, List.mem_singleton] at h
                    rcases h with (h | h) | h
                    · exact Or.inr (Or.inr ⟨best, rest, rfl, Or.inr (Or.inl ⟨mrec, h4, h⟩)⟩)
                    · exact Or.inr (Or.inr ⟨best, rest, rfl, Or.inr (Or.inr (Or.inl h))⟩)
                    · rcases h6 : env.preSave nslPrePath with e6 | u6
                      · rw [h6, step_err] at h
                        simp only [List.mem_singleton] at h
                        exact Or.inr (Or.inr ⟨best, rest, rfl, Or.inr (Or.inr (Or.inr h))⟩)
                      · rw [h6, step_ok] at h
                        simp only [List.mem_append, List.mem_singleton, List.not_mem_nil, or_false] at h
                        exact Or.inr (Or.inr ⟨best, rest, rfl, Or.inr (Or.inr (Or.inr h))⟩)

/-- Trace characterisation of the NSL try-block body. -/
theorem mem_nslTryBody {D X Y V : Type} (env : NslEnv D X Y V) (e : Event)
    (h : e ∈ (nslTryBody env).2) :
    e = Event.loadCall "KDDTrain+.txt" ∨ e = Event.loadCall "KDDTest+.txt" ∨
    ∃ t s q p, env.load "KDDTrain+.txt" = Except.ok (some t) ∧
      env.load "KDDTest+.txt" = Except.ok (some s) ∧
      env.fit_transform t = Except.ok q ∧ env.transform s = Except.ok p ∧
      e ∈ (nslTrain env q.1 q.2.2.1 q.2.1 q.2.2.2 p.1 p.2).2 := by
  unfold nslTryBody at h
  rcases h1 : env.analyzerInit with e1 | u1
  · rw [h1, step_err] at h; simp at h
  · rw [h1, step_ok] at h
    simp only [List.nil_append] at h
    rcases h2 : env.load "KDDTrain+.txt" with e2 | td
    · rw [h2, step_err] at h
      simp only [List.mem_singleton] at h
      exact Or.inl h
    · rw [h2, step_ok] at h
      simp only [List.mem_append, List.mem_singleton] at h
      rcases h with h | h
      · exact Or.inl h
      · rcases h3 : env.load "KDDTest+.txt" with e3 | sd
        · rw [h3, step_err] at h
          simp only [List.mem_singleton] at h
          exact Or.inr (Or.inl h)
        · rw [h3, step_ok] at h
          simp only [List.mem_append, List.mem_singleton] at h
          rcases h with h | h
          · exact Or.inr (Or.inl h)
          · cases td with
            | none => cases sd <;> simp at h
            | some t =>
              cases sd with
              | none => simp at h
              | some s =>
                simp only [] at h
                rcases h4 : env.preInit with e4 | u4
                · rw [h4, step_err] at h; simp at h
                · rw [h4, step_ok] at h
                  simp only [List.nil_append] at h
                  rcases h5 : env.fit_transform t with e5 | q
                  · rw [h5, step_err] at h; simp at h
                  · rw [h5, step_ok] at h
                    simp only [List.nil_append] at h
                    rcases h6 : env.transform s with e6 | p
                    · rw [h6, step_err] at h; simp at h
                    · rw [h6, step_ok] at h
                      simp only [List.nil_append] at h
                      exact Or.inr (Or.inr ⟨t, s, q, p, rfl, rfl, h5, h6, h⟩)

/-- Trace characterisation of the NSL procedure wrapper. -/
theorem mem_train_nsl {D X Y V : Type} (env : NslEnv D X Y V) (e : Event)
    (h : e ∈ (train_nsl_kdd_baseline env).2) :
    e = Event.sep nslTitle ∨ e = Event.importFailed ∨ e = Event.tracebackPrinted ∨
      e ∈ (nslTryBody env).2 := by
  unfold train_nsl_kdd_baseline at h
  rcases h1 : env.importResult with _ | m
  · rw [h1] at h
    rcases hb : nslTryBody env with ⟨r, tr⟩
    rw [hb] at h
    cases r with
    | ok b =>
      simp only [List.mem_cons, List.not_mem_nil, or_false] at h
      rcases h with h | h
      · exact Or.inl h
      · exact Or.inr (Or.inr (Or.inr h))
    | error e2 =>
      simp only [List.mem_cons, List.mem_append, List.mem_singleton,
        List.not_mem_nil, or_false] at h
      rcases h with h | (h | h)
      · exact Or.inl h
      · exact Or.inr (Or.inr (Or.inr h))
      · exact Or.inr (Or.inr (Or.inl h))
  · rw [h1] at h
    simp at h
    rcases h with h | h
    · exact Or.inl h
    · exact Or.inr (Or.inl h)

/-- Trace characterisation of the shared CIC training tail. -/
theorem mem_cicTrain {D X Y V : Type} (env : CicEnv D X Y V)
    (a c p1 : List X) (b d p2 : List Y) (e : Event)
    (h : e ∈ (cicTrain env a b c d p1 p2).2) :
    e = Event.trainAllCall a.length (if 10000 < a.length then ["svm_linear", "knn"] else []) ∨
    (∃ lb, env.evaluate_all c d = Except.ok lb ∧ e = Event.evaluateAllCall lb.length) ∨
    (∃ best rest, env.evaluate_all c d = Except.ok (best :: rest) ∧
      (e = Event.evaluateModelCall best.model_name ∨
       (∃ mrec, env.evaluate_model best.model_name p1 p2 = Except.ok mrec ∧ e ∈ metricLoop mrec) ∨
       e = Event.saveModelsCall cicModelsDir cicResultsDir "_cic")) := by
  unfold cicTrain at h
  rcases h1 : env.baselineInit with e1 | u1
  · rw [h1, step_err] at h; simp at h
  · rw [h1, step_ok] at h
    rcases h2 : env.train_all a b (if 10000 < a.length then ["svm_linear", "knn"] else []) with e2 | u2
    · rw [h2, step_err] at h
      simp only [List.nil_append, List.mem_singleton] at h
      exact Or.inl h
    · rw [h2, step_ok] at h
      simp only [List.nil_append, List.mem_append, List.mem_singleton] at h
      rcases h with h | h
      · exact Or.inl h
      · rcases h3 : env.evaluate_all c d with e3 | lb
        · rw [h3, stepR_err] at h; simp at h
        · rw [h3, stepR_ok] at h
          simp only [List.mem_append, List.mem_singleton] at h
          rcases h with h | h
          · exact Or.inr (Or.inl ⟨lb, rfl, h⟩)
          · cases lb with
            | nil => simp at h
            | cons best rest =>
              simp only [] at h
              rcases h4 : env.evaluate_model best.model_name p1 p2 with e4 | mrec
              · rw [h4, step_err] at h
                simp only [List.mem_singleton] at h
                exact Or.inr (Or.inr ⟨best, rest, rfl, Or.inl h⟩)
              · rw [h4, step_ok] at h
                simp only [List.mem_append, List.mem_singleton] at h
                rcases h with h | h
                · exact Or.inr (Or.inr ⟨best, rest, rfl, Or.inl h⟩)
                · rcases h5 : env.save_models cicModelsDir cicResultsDir "_cic" with e5 | u5
                  · rw [h5, step_err] at h
                    simp only [List.mem_append, List.mem_singleton] at h
                    rcases h with h | h
                    · exact Or.inr (Or.inr ⟨best, rest, rfl, Or.inr (Or.inl ⟨mrec, h4, h⟩)⟩)
                    · exact Or.inr (Or.inr ⟨best, rest, rfl, Or.inr (Or.inr h)⟩)
                  · rw [h5, step_ok] at h
                    simp only [List.mem_append, List.mem_singleton, List.not_mem_nil,
                      or_false] at h
                    rcases h with h | h
                    · exact Or.inr (Or.inr ⟨best, rest, rfl, Or.inr (Or.inl ⟨mrec, h4, h⟩)⟩)
                    · exact Or.inr (Or.inr ⟨best, rest, rfl, Or.inr (Or.inr h)⟩)

/-- Trace characterisation of the CIC try-block body. -/
theorem mem_cicTryBody {D X Y V : Type} (env : CicEnv D X Y V) (e : Event)
    (h : e ∈ (cicTryBody env).2) :
    e = Event.loadCall "cic_full" ∨
    ∃ d fl, env.load = Except.ok (some d) ∧ env.fit_transform d = Except.ok fl ∧
      (e = Event.splitCall 2 5 42 fl.1.length ∨
       ∃ s1, env.split 2 5 42 fl.1 fl.2 = Except.ok s1 ∧
         (e = Event.splitCall 1 2 42 s1.2.1.length ∨
          ∃ s2, env.split 1 2 42 s1.2.1 s1.2.2.2 = Except.ok s2 ∧
            e ∈ (cicTrain env s1.1 s1.2.2.1 s2.1 s2.2.2.1 s2.2.1 s2.2.2.2).2)) := by
  unfold cicTryBody at h
  rcases h1 : env.load with e1 | cd
  · rw [h1, step_err] at h
    simp only [List.mem_singleton] at h
    exact Or.inl h
  · rw [h1, step_ok] at h
    simp only [List.mem_append, List.mem_singleton] at h
    rcases h with h | h
    · exact Or.inl h
    · cases cd with
      | none => simp at h
      | some d =>
        simp only [] at h
        rcases h2 : env.fit_transform d with e2 | fl
        · rw [h2, step_err] at h; simp at h
        · rw [h2, step_ok] at h
          simp only [List.nil_append] at h
          rcases h3 : env.split 2 5 42 fl.1 fl.2 with e3 | s1
          · rw [h3, step_err] at h
            simp only [List.mem_singleton] at h
            exact Or.inr ⟨d, fl, rfl, h2, Or.inl h⟩
          · rw [h3, step_ok] at h
            simp only [List.mem_append, List.mem_singleton] at h
            rcases h with h | h
            · exact Or.inr ⟨d, fl, rfl, h2, Or.inl h⟩
            · rcases h4 : env.split 1 2 42 s1.2.1 s1.2.2.2 with e4 | s2
              · rw [h4, step_err] at h
                simp only [List.mem_singleton] at h
                exact Or.inr ⟨d, fl, rfl, h2, Or.inr ⟨s1, h3, Or.inl h⟩⟩
              · rw [h4, step_ok] at h
                simp only [List.mem_append, List.mem_singleton] at h
                rcases h with h | h
                · exact Or.inr ⟨d, fl, rfl, h2, Or.inr ⟨s1, h3, Or.inl h⟩⟩
                · exact Or.inr ⟨d, fl, rfl, h2, Or.inr ⟨s1, h3, Or.inr ⟨s2, h4, h⟩⟩⟩

/-- Trace characterisation of the CIC procedure wrapper. -/
theorem mem_train_cic {D X Y V : Type} (env : CicEnv D X Y V) (e : Event)
    (h : e ∈ (train_cic_baseline env).2) :
    e = Event.sep cicTitle ∨ e = Event.importFailed ∨ e = Event.tracebackPrinted ∨
      (env.importResult = none ∧ (∃ u, env.preInit = Except.ok u) ∧
        e ∈ (cicTryBody env).2) := by
  unfold train_cic_baseline at h
  rcases h1 : env.importResult with _ | m
  · rw [h1] at h
    rcases h2 : env.preInit with e2 | u2
    · rw [h2] at h
      simp at h
      exact Or.inl h
    · rw [h2] at h
      rcases hb : cicTryBody env with ⟨r, tr⟩
      rw [hb] at h
      cases r with
      | ok b =>
        simp only [List.mem_cons, List.not_mem_nil, or_false] at h
        rcases h with h | h
        · exact Or.inl h
        · exact Or.inr (Or.inr (Or.inr ⟨rfl, ⟨u2, rfl⟩, h⟩))
      | error e3 =>
        simp only [List.mem_cons, List.mem_append, List.mem_singleton,
          List.not_mem_nil, or_false] at h
        rcases h with h | (h | h)
        · exact Or.inl h
        · exact Or.inr (Or.inr (Or.inr ⟨rfl, ⟨u2, rfl⟩, h⟩))
        · exact Or.inr (Or.inr (Or.inl h))
  · rw [h1] at h
    simp at h
    rcases h with h | h
    · exact Or.inl h
    · exact Or.inr (Or.inl h)

/-- Two lists of equal length that differ head-block-wise generate
disjoint append-extensions (disjoint directory subtrees). -/
theorem list_append_ne {a b : List String} (hlen : a.length = b.length)
    (hne : a ≠ b) : ∀ t u, a ++ t ≠ b ++ u := by
  intro t u h
  exact hne (List.append_inj h hlen).1

/-- C3: the excluded-model list passed to `train_all` is purely a function
of the training-set row count. -/
theorem C3_exclusion_policy :
    ∀ (D X Y V : Type),
    (∀ (env : NslEnv D X Y V) (n : Nat) (ex : List String),
      Event.trainAllCall n ex ∈ (train_nsl_kdd_baseline env).2 →
      ex = if 5000 < n then ["svm_linear"] else []) ∧
    (∀ (env : CicEnv D X Y V) (n : Nat) (ex : List String),
      Event.trainAllCall n ex ∈ (train_cic_baseline env).2 →
      ex = if 10000 < n then ["svm_linear", "knn"] else []) := by
  intro D X Y V
  constructor
  · intro env n ex h
    rcases mem_train_nsl env _ h with h | h | h | h
    · simp at h
    · simp at h
    · simp at h
    · rcases mem_nslTryBody env _ h with h | h | ⟨t, s, q, p, _, _, _, _, h⟩
      · simp at h
      · simp at h
      · rcases mem_nslTrain env _ _ _ _ _ _ _ h with
          h | ⟨lb, _, h⟩ | ⟨best, rest, _, h | ⟨mrec, _, h⟩ | h | h⟩
        · simp only [Event.trainAllCall.injEq] at h
          obtain ⟨hn, hex⟩ := h
          subst hn
          exact hex
        · simp at h
        · simp at h
        · simp [metricLoop, metricNames] at h
        · simp at h
        · simp at h
  · intro env n ex h
    rcases mem_train_cic env _ h with h | h | h | ⟨_, _, h⟩
    · simp at h
    · simp at h
    · simp at h
    · rcases mem_cicTryBody env _ h with h | ⟨d, fl, _, _, h | ⟨s1, _, h | ⟨s2, _, h⟩⟩⟩
      · simp at h
      · simp at h
      · simp at h
      · rcases mem_cicTrain env _ _ _ _ _ _ _ h with
          h | ⟨lb, _, h⟩ | ⟨best, rest, _, h | ⟨mrec, _, h⟩ | h⟩
        · simp only [Event.trainAllCall.injEq] at h
          obtain ⟨hn, hex⟩ := h
          subst hn
          exact hex
        · simp at h
        · simp at h
        · simp [metricLoop, metricNames] at h
        · simp at h

/-- C7: the model evaluated on the test split is exactly the one named in
the first row of the leaderboard `evaluate_all` returned; the procedure
performs no re-ranking. -/
theorem C7_best_model_is_first_row :
    ∀ (D X Y V : Type),
    (∀ (env : NslEnv D X Y V) (lb : List (Row V)),
      env.evaluate_all = (fun _ _ => Except.ok lb) →
      ∀ name, Event.evaluateModelCall name ∈ (train_nsl_kdd_baseline env).2 →
        ∃ best rest, lb = best :: rest ∧ name = best.model_name) ∧
    (∀ (env : CicEnv D X Y V) (lb : List (Row V)),
      env.evaluate_all = (fun _ _ => Except.ok lb) →
      ∀ name, Event.evaluateModelCall name ∈ (train_cic_baseline env).2 →
        ∃ best rest, lb = best :: rest ∧ name = best.model_name) := by
  intro D X Y V
  constructor
  · intro env lb hconst name h
    rcases mem_train_nsl env _ h with h | h | h | h
    · simp at h
    · simp at h
    · simp at h
    · rcases mem_nslTryBody env _ h with h | h | ⟨t, s, q, p, _, _, _, _, h⟩
      · simp at h
      · simp at h
      · rcases mem_nslTrain env _ _ _ _ _ _ _ h with
          h | ⟨lb2, _, h⟩ | ⟨best, rest, heq, h | ⟨mrec, _, h⟩ | h | h⟩
        · simp at h
        · simp at h
        · rw [hconst] at heq
          simp only [Event.evaluateModelCall.injEq] at h
          exact ⟨best, rest, Except.ok.inj heq, h⟩
        · simp [metricLoop, metricNames] at h
        · simp at h
        · simp at h
  · intro env lb hconst name h
    rcases mem_train_cic env _ h with h | h | h | ⟨_, _, h⟩
    · simp at h
    · simp at h
    · simp at h
    · rcases mem_cicTryBody env _ h with h | ⟨d, fl, _, _, h | ⟨s1, _, h | ⟨s2, _, h⟩⟩⟩
      · simp at h
      · simp at h
      · simp at h
      · rcases mem_cicTrain env _ _ _ _ _ _ _ h with
          h | ⟨lb2, _, h⟩ | ⟨best, rest, heq, h | ⟨mrec, _, h⟩ | h⟩
        · simp at h
        · simp at h
        · rw [hconst] at heq
          simp only [Event.evaluateModelCall.injEq] at h
          exact ⟨best, rest, Except.ok.inj heq, h⟩
        · simp [metricLoop, metricNames] at h
        · simp at h

/-- C9: `PROJECT_ROOT` is the grandparent of the resolved script path — the
`src/` directory, not the repository root — every persistence path either
procedure passes is anchored at `PROJECT_ROOT`, and the NSL target
directories are disjoint subtrees from the CIC ones. -/
theorem C9_output_path_layout :
    ∀ (D X Y V : Type),
    PROJECT_ROOT = ["src"] ∧ PROJECT_ROOT ≠ ([] : List String) ∧
    (∀ (env : NslEnv D X Y V) d rd sfx,
      Event.saveModelsCall d rd sfx ∈ (train_nsl_kdd_baseline env).2 →
      d = nslModelsDir ∧ rd = nslResultsDir ∧ sfx = "_nsl") ∧
    (∀ (env : NslEnv D X Y V) p,
      Event.preSaveCall p ∈ (train_nsl_kdd_baseline env).2 → p = nslPrePath) ∧
    (∀ (env : CicEnv D X Y V) d rd sfx,
      Event.saveModelsCall d rd sfx ∈ (train_cic_baseline env).2 →
      d = cicModelsDir ∧ rd = cicResultsDir ∧ sfx = "_cic") ∧
    (∃ r, nslModelsDir = PROJECT_ROOT ++ r) ∧
    (∃ r, nslResultsDir = PROJECT_ROOT ++ r) ∧
    (∃ r, cicModelsDir = PROJECT_ROOT ++ r) ∧
    (∃ r, cicResultsDir = PROJECT_ROOT ++ r) ∧
    (∃ r, nslPrePath = PROJECT_ROOT ++ r) ∧
    (∀ t u, nslModelsDir ++ t ≠ cicModelsDir ++ u) ∧
    (∀ t u, nslModelsDir ++ t ≠ cicResultsDir ++ u) ∧
    (∀ t u, nslResultsDir ++ t ≠ cicModelsDir ++ u) ∧
    (∀ t u, nslResultsDir ++ t ≠ cicResultsDir ++ u) := by
  intro D X Y V
  refine ⟨rfl, by decide, ?_, ?_, ?_, ⟨_, rfl⟩, ⟨_, rfl⟩, ⟨_, rfl⟩, ⟨_, rfl⟩,
    ⟨["data", "models", "baseline", "nsl_preprocessor.pkl"], rfl⟩,
    list_append_ne rfl (by decide), list_append_ne rfl (by decide),
    list_append_ne rfl (by decide), list_append_ne rfl (by decide)⟩
  · intro env d rd sfx h
    rcases mem_train_nsl env _ h with h | h | h | h
    · simp at h
    · simp at h
    · simp at h
    · rcases mem_nslTryBody env _ h with h | h | ⟨t, s, q, p, _, _, _, _, h⟩
      · simp at h
      · simp at h
      · rcases mem_nslTrain env _ _ _ _ _ _ _ h with
          h | ⟨lb, _, h⟩ | ⟨best, rest, _, h | ⟨mrec, _, h⟩ | h | h⟩
        · simp at h
        · simp at h
        · simp at h
        · simp [metricLoop, metricNames] at h
        · simp only [Event.saveModelsCall.injEq] at h
          exact h
        · simp at h
  · intro env p h
    rcases mem_train_nsl env _ h with h | h | h | h
    · simp at h
    · simp at h
    · simp at h
    · rcases mem_nslTryBody env _ h with h | h | ⟨t, s, q, pp, _, _, _, _, h⟩
      · simp at h
      · simp at h
      · rcases mem_nslTrain env _ _ _ _ _ _ _ h with
          h | ⟨lb, _, h⟩ | ⟨best, rest, _, h | ⟨mrec, _, h⟩ | h | h⟩
        · simp at h
        · simp at h
        · simp at h
        · simp [metricLoop, metricNames] at h
        · simp at h
        · simp only [Event.preSaveCall.injEq] at h
          exact h
  · intro env d rd sfx h
    rcases mem_train_cic env _ h with h | h | h | ⟨_, _, h⟩
    · simp at h
    · simp at h
    · simp at h
    · rcases mem_cicTryBody env _ h with h | ⟨dd, fl, _, _, h | ⟨s1, _, h | ⟨s2, _, h⟩⟩⟩
      · simp at h
      · simp at h
      · simp at h
      · rcases mem_cicTrain env _ _ _ _ _ _ _ h with
          h | ⟨lb, _, h⟩ | ⟨best, rest, _, h | ⟨mrec, _, h⟩ | h⟩
        · simp at h
        · simp at h
        · simp at h
        · simp [metricLoop, metricNames] at h
        · simp only [Event.saveModelsCall.injEq] at h
          exact h

theorem step_err_fst {α : Type} (pre : List Event) (e : Exn)
    (k : α → Except Exn Bool × List Event) :
    (step pre (Except.error e) k).1 = Except.error e := rfl

theorem step_ok_fst {α : Type} (pre : List Event) (a : α)
    (k : α → Except Exn Bool × List Event) :
    (step pre (Except.ok a) k).1 = (k a).1 := rfl

theorem stepR_err_fst {α : Type} (e : Exn) (ev : α → List Event)
    (k : α → Except Exn Bool × List Event) :
    (stepR (Except.error e) ev k).1 = Except.error e := rfl

theorem stepR_ok_fst {α : Type} (a : α) (ev : α → List Event)
    (k : α → Except Exn Bool × List Event) :
    (stepR (Except.ok a) ev k).1 = (k a).1 := rfl

/-- A `True` outcome of the NSL training tail pins every collaborator
outcome along the success path. -/
theorem nslTrain_ok_true {D X Y V : Type} (env : NslEnv D X Y V)
    (a c p1 : List X) (b d p2 : List Y)
    (h : (nslTrain env a b c d p1 p2).1 = Except.ok true) :
    env.baselineInit = Except.ok () ∧
    env.train_all a b (if 5000 < a.length then ["svm_linear"] else []) = Except.ok () ∧
    (∃ best rest, env.evaluate_all c d = Except.ok (best :: rest) ∧
      ∃ mrec, env.evaluate_model best.model_name p1 p2 = Except.ok mrec) ∧
    env.save_models nslModelsDir nslResultsDir "_nsl" = Except.ok () ∧
    env.preSave nslPrePath = Except.ok () := by
  unfold nslTrain at h
  rcases h1 : env.baselineInit with e1 | u1
  · simp only [h1, step_err_fst] at h
    exact Except.noConfusion h
  · simp only [h1, step_ok_fst] at h
    rcases h2 : env.train_all a b (if 5000 < a.length then ["svm_linear"] else []) with e2 | u2
    · simp only [h2, step_err_fst] at h
      exact Except.noConfusion h
    · simp only [h2, step_ok_fst] at h
      rcases h3 : env.evaluate_all c d with e3 | lb
      · simp only [h3, stepR_err_fst] at h
        exact Except.noConfusion h
      · simp only [h3, stepR_ok_fst] at h
        cases lb with
        | nil => simp at h
        | cons best rest =>
          simp only [] at h
          rcases h4 : env.evaluate_model best.model_name p1 p2 with e4 | mrec
          · simp only [h4, step_err_fst] at h
            exact Except.noConfusion h
          · simp only [h4, step_ok_fst] at h
            rcases h5 : env.save_models nslModelsDir nslResultsDir "_nsl" with e5 | u5
            · simp only [h5, step_err_fst] at h
              exact Except.noConfusion h
            · simp only [h5, step_ok_fst] at h
              rcases h6 : env.preSave nslPrePath with e6 | u6
              · simp only [h6, step_err_fst] at h
                exact Except.noConfusion h
              · exact ⟨rfl, rfl, ⟨best, rest, rfl, mrec, h4⟩, rfl, rfl⟩

/-- A `True` outcome of the NSL try body pins the load/preprocess chain. -/
theorem nslTryBody_ok_true {D X Y V : Type} (env : NslEnv D X Y V)
    (h : (nslTryBody env).1 = Except.ok true) :
    env.analyzerInit = Except.ok () ∧
    ∃ t s q p, env.load "KDDTrain+.txt" = Except.ok (some t) ∧
      env.load "KDDTest+.txt" = Except.ok (some s) ∧
      env.preInit = Except.ok () ∧
      env.fit_transform t = Except.ok q ∧ env.transform s = Except.ok p ∧
      (nslTrain env q.1 q.2.2.1 q.2.1 q.2.2.2 p.1 p.2).1 = Except.ok true := by
  unfold nslTryBody at h
  rcases h1 : env.analyzerInit with e1 | u1
  · simp only [h1, step_err_fst] at h
    exact Except.noConfusion h
  · simp only [h1, step_ok_fst] at h
    rcases h2 : env.load "KDDTrain+.txt" with e2 | td
    · simp only [h2, step_err_fst] at h
      exact Except.noConfusion h
    · simp only [h2, step_ok_fst] at h
      rcases h3 : env.load "KDDTest+.txt" with e3 | sd
      · simp only [h3, step_err_fst] at h
        exact Except.noConfusion h
      · simp only [h3, step_ok_fst] at h
        cases td with
        | none => cases sd <;> simp at h
        | some t =>
          cases sd with
          | none => simp at h
          | some s =>
            simp only [] at h
            rcases h4 : env.preInit with e4 | u4
            · simp only [h4, step_err_fst] at h
              exact Except.noConfusion h
            · simp only [h4, step_ok_fst] at h
              rcases h5 : env.fit_transform t with e5 | q
              · simp only [h5, step_err_fst] at h
                exact Except.noConfusion h
              · simp only [h5, step_ok_fst] at h
                rcases h6 : env.transform s with e6 | p
                · simp only [h6, step_err_fst] at h
                  exact Except.noConfusion h
                · simp only [h6, step_ok_fst] at h
                  exact ⟨rfl, t, s, q, p, rfl, rfl, rfl, h5, h6, h⟩

/-- A `True` outcome of the NSL procedure implies imports succeeded and the
try body returned `True`. -/
theorem nsl_ok_true {D X Y V : Type} (env : NslEnv D X Y V)
    (h : (train_nsl_kdd_baseline env).1 = Except.ok true) :
    env.importResult = none ∧ (nslTryBody env).1 = Except.ok true := by
  unfold train_nsl_kdd_baseline at h
  rcases h1 : env.importResult with _ | m
  · rw [h1] at h
    rcases hb : nslTryBody env with ⟨r, tr⟩
    rw [hb] at h
    cases r with
    | error e => simp at h
    | ok b => exact ⟨rfl, h⟩
  · rw [h1] at h
    simp at h

/-- A `True` outcome of the CIC training tail pins every collaborator
outcome along the success path. -/
theorem cicTrain_ok_true {D X Y V : Type} (env : CicEnv D X Y V)
    (a c p1 : List X) (b d p2 : List Y)
    (h : (cicTrain env a b c d p1 p2).1 = Except.ok true) :
    env.baselineInit = Except.ok () ∧
    env.train_all a b (if 10000 < a.length then ["svm_linear", "knn"] else []) = Except.ok () ∧
    (∃ best rest, env.evaluate_all c d = Except.ok (best :: rest) ∧
      ∃ mrec, env.evaluate_model best.model_name p1 p2 = Except.ok mrec) ∧
    env.save_models cicModelsDir cicResultsDir "_cic" = Except.ok () := by
  unfold cicTrain at h
  rcases h1 : env.baselineInit with e1 | u1
  · simp only [h1, step_err_fst] at h
    exact Except.noConfusion h
  · simp only [h1, step_ok_fst] at h
    rcases h2 : env.train_all a b (if 10000 < a.length then ["svm_linear", "knn"] else []) with e2 | u2
    · simp only [h2, step_err_fst] at h
      exact Except.noConfusion h
    · simp only [h2, step_ok_fst] at h
      rcases h3 : env.evaluate_all c d with e3 | lb
      · simp only [h3, stepR_err_fst] at h
        exact Except.noConfusion h
      · simp only [h3, stepR_ok_fst] at h
        cases lb with
        | nil => simp at h
        | cons best rest =>
          simp only [] at h
          rcases h4 : env.evaluate_model best.model_name p1 p2 with e4 | mrec
          · simp only [h4, step_err_fst] at h
            exact Except.noConfusion h
          · simp only [h4, step_ok_fst] at h
            rcases h5 : env.save_models cicModelsDir cicResultsDir "_cic" with e5 | u5
            · simp only [h5, step_err_fst] at h
              exact Except.noConfusion h
            · exact ⟨rfl, rfl, ⟨best, rest, rfl, mrec, h4⟩, rfl⟩

/-- A `True` outcome of the CIC try body pins the load/split chain. -/
theorem cicTryBody_ok_true {D X Y V : Type} (env : CicEnv D X Y V)
    (h : (cicTryBody env).1 = Except.ok true) :
    ∃ d fl s1 s2, env.load = Except.ok (some d) ∧
      env.fit_transform d = Except.ok fl ∧
      env.split 2 5 42 fl.1 fl.2 = Except.ok s1 ∧
      env.split 1 2 42 s1.2.1 s1.2.2.2 = Except.ok s2 ∧
      (cicTrain env s1.1 s1.2.2.1 s2.1 s2.2.2.1 s2.2.1 s2.2.2.2).1 = Except.ok true := by
  unfold cicTryBody at h
  rcases h1 : env.load with e1 | cd
  · simp only [h1, step_err_fst] at h
    exact Except.noConfusion h
  · simp only [h1, step_ok_fst] at h
    cases cd with
    | none => simp at h
    | some d =>
      simp only [] at h
      rcases h2 : env.fit_transform d with e2 | fl
      · simp only [h2, step_err_fst] at h
        exact Except.noConfusion h
      · simp only [h2, step_ok_fst] at h
        rcases h3 : env.split 2 5 42 fl.1 fl.2 with e3 | s1
        · simp only [h3, step_err_fst] at h
          exact Except.noConfusion h
        · simp only [h3, step_ok_fst] at h
          rcases h4 : env.split 1 2 42 s1.2.1 s1.2.2.2 with e4 | s2
          · simp only [h4, step_err_fst] at h
            exact Except.noConfusion h
          · simp only [h4, step_ok_fst] at h
            exact ⟨d, fl, s1, s2, rfl, h2, h3, h4, h⟩

/-- A `True` outcome of the CIC procedure implies imports and the
preprocessor constructor succeeded and the try body returned `True`. -/
theorem cic_ok_true {D X Y V : Type} (env : CicEnv D X Y V)
    (h : (train_cic_baseline env).1 = Except.ok true) :
    env.importResult = none ∧ env.preInit = Except.ok () ∧
    (cicTryBody env).1 = Except.ok true := by
  unfold train_cic_baseline at h
  rcases h1 : env.importResult with _ | m
  · rw [h1] at h
    rcases h2 : env.preInit with e2 | u2
    · rw [h2] at h
      exact Except.noConfusion h
    · rw [h2] at h
      rcases hb : cicTryBody env with ⟨r, tr⟩
      rw [hb] at h
      cases r with
      | error e => simp at h
      | ok b => exact ⟨rfl, rfl, h⟩
  · rw [h1] at h
    simp at h

/-- Computation of the full NSL run on an all-succeeding behaviour: result
`True` and the exact event trace. -/
theorem nsl_success_run {D X Y V : Type} (env : NslEnv D X Y V)
    (t s : D) (q : List X × List X × List Y × List Y) (p : List X × List Y)
    (best : Row V) (rest : List (Row V)) (mrec : List (String × V))
    (h0 : env.importResult = none)
    (h1 : env.analyzerInit = Except.ok ())
    (h2 : env.load "KDDTrain+.txt" = Except.ok (some t))
    (h3 : env.load "KDDTest+.txt" = Except.ok (some s))
    (h4 : env.preInit = Except.ok ())
    (h5 : env.fit_transform t = Except.ok q)
    (h6 : env.transform s = Except.ok p)
    (h7 : env.baselineInit = Except.ok ())
    (h8 : env.train_all q.1 q.2.2.1 (if 5000 < q.1.length then ["svm_linear"] else []) = Except.ok ())
    (h9 : env.evaluate_all q.2.1 q.2.2.2 = Except.ok (best :: rest))
    (h10 : env.evaluate_model best.model_name p.1 p.2 = Except.ok mrec)
    (h11 : env.save_models nslModelsDir nslResultsDir "_nsl" = Except.ok ())
    (h12 : env.preSave nslPrePath = Except.ok ()) :
    train_nsl_kdd_baseline env = (Except.ok true,
      Event.sep nslTitle :: Event.loadCall "KDDTrain+.txt" :: Event.loadCall "KDDTest+.txt" ::
      Event.trainAllCall q.1.length (if 5000 < q.1.length then ["svm_linear"] else []) ::
      Event.evaluateAllCall (rest.length + 1) :: Event.evaluateModelCall best.model_name ::
      (metricLoop mrec ++ [Event.saveModelsCall nslModelsDir nslResultsDir "_nsl",
        Event.preSaveCall nslPrePath])) := by
  unfold train_nsl_kdd_baseline nslTryBody nslTrain
  simp [h0, h1, h2, h3, h4, h5, h6, h7, h8, h9, h10, h11, h12,
    step_ok, stepR_ok]

/-- Computation of the full CIC run on an all-succeeding behaviour: result
`True` and the exact event trace. -/
theorem cic_success_run {D X Y V : Type} (env : CicEnv D X Y V)
    (d : D) (fl : List X × List Y)
    (s1 s2 : List X × List X × List Y × List Y)
    (best : Row V) (rest : List (Row V)) (mrec : List (String × V))
    (h0 : env.importResult = none)
    (h1 : env.preInit = Except.ok ())
    (h2 : env.load = Except.ok (some d))
    (h3 : env.fit_transform d = Except.ok fl)
    (h4 : env.split 2 5 42 fl.1 fl.2 = Except.ok s1)
    (h5 : env.split 1 2 42 s1.2.1 s1.2.2.2 = Except.ok s2)
    (h6 : env.baselineInit = Except.ok ())
    (h7 : env.train_all s1.1 s1.2.2.1 (if 10000 < s1.1.length then ["svm_linear", "knn"] else []) = Except.ok ())
    (h8 : env.evaluate_all s2.1 s2.2.2.1 = Except.ok (best :: rest))
    (h9 : env.evaluate_model best.model_name s2.2.1 s2.2.2.2 = Except.ok mrec)
    (h10 : env.save_models cicModelsDir cicResultsDir "_cic" = Except.ok ()) :
    train_cic_baseline env = (Except.ok true,
      Event.sep cicTitle :: Event.loadCall "cic_full" ::
      Event.splitCall 2 5 42 fl.1.length :: Event.splitCall 1 2 42 s1.2.1.length ::
      Event.trainAllCall s1.1.length (if 10000 < s1.1.length then ["svm_linear", "knn"] else []) ::
      Event.evaluateAllCall (rest.length + 1) :: Event.evaluateModelCall best.model_name ::
      (metricLoop mrec ++ [Event.saveModelsCall cicModelsDir cicResultsDir "_cic"])) := by
  unfold train_cic_baseline cicTryBody cicTrain
  simp [h0, h1, h2, h3, h4, h5, h6, h7, h8, h9, h10, step_ok, stepR_ok]

/-- Once the CIC run reaches the two splits, its trace starts with exactly
the two recorded split calls, and everything after them comes from the
training tail (or is the traceback print). -/
theorem cic_splits_run {D X Y V : Type} (env : CicEnv D X Y V)
    (d : D) (fl : List X × List Y) (s1 s2 : List X × List X × List Y × List Y)
    (h0 : env.importResult = none)
    (h1 : env.preInit = Except.ok ())
    (h2 : env.load = Except.ok (some d))
    (h3 : env.fit_transform d = Except.ok fl)
    (h4 : env.split 2 5 42 fl.1 fl.2 = Except.ok s1)
    (h5 : env.split 1 2 42 s1.2.1 s1.2.2.2 = Except.ok s2) :
    ∃ tail, (train_cic_baseline env).2
        = Event.sep cicTitle :: Event.loadCall "cic_full" ::
          Event.splitCall 2 5 42 fl.1.length :: Event.splitCall 1 2 42 s1.2.1.length :: tail ∧
      ∀ e ∈ tail, e = Event.tracebackPrinted ∨
        e ∈ (cicTrain env s1.1 s1.2.2.1 s2.1 s2.2.2.1 s2.2.1 s2.2.2.2).2 := by
  unfold train_cic_baseline cicTryBody
  rcases hc : cicTrain env s1.1 s1.2.2.1 s2.1 s2.2.2.1 s2.2.1 s2.2.2.2 with ⟨rc, tc⟩
  cases rc with
  | error e =>
    refine ⟨tc ++ [Event.tracebackPrinted], ?_, ?_⟩
    · simp [h0, h1, h2, h3, h4, h5, step_ok, hc]
    · intro e2 he
      rcases List.mem_append.mp he with he | he
      · right
        exact he
      · left
        simpa using he
  | ok b =>
    refine ⟨tc, ?_, ?_⟩
    · simp [h0, h1, h2, h3, h4, h5, step_ok, hc]
    · intro e2 he
      right
      exact he

/-- C8: a procedure returns `True` only if its data loaded (the loader
returned non-`None`), training produced at least one leaderboard row, and
persistence was attempted (`save_models`, plus `preprocessor.save` for
NSL-KDD); and any exception raised inside the main try block is caught,
a traceback is logged, and the procedure returns `False`. -/
theorem C8_success_invariants :
    ∀ (D X Y V : Type),
    (∀ env : NslEnv D X Y V, (train_nsl_kdd_baseline env).1 = Except.ok true →
      (∃ t, env.load "KDDTrain+.txt" = Except.ok (some t)) ∧
      (∃ s, env.load "KDDTest+.txt" = Except.ok (some s)) ∧
      (∃ n, Event.evaluateAllCall (n + 1) ∈ (train_nsl_kdd_baseline env).2) ∧
      Event.saveModelsCall nslModelsDir nslResultsDir "_nsl" ∈ (train_nsl_kdd_baseline env).2 ∧
      Event.preSaveCall nslPrePath ∈ (train_nsl_kdd_baseline env).2) ∧
    (∀ (env : NslEnv D X Y V) (e : Exn), env.importResult = none →
      (nslTryBody env).1 = Except.error e →
      (train_nsl_kdd_baseline env).1 = Except.ok false ∧
      Event.tracebackPrinted ∈ (train_nsl_kdd_baseline env).2) ∧
    (∀ env : CicEnv D X Y V, (train_cic_baseline env).1 = Except.ok true →
      (∃ d, env.load = Except.ok (some d)) ∧
      (∃ n, Event.evaluateAllCall (n + 1) ∈ (train_cic_baseline env).2) ∧
      Event.saveModelsCall cicModelsDir cicResultsDir "_cic" ∈ (train_cic_baseline env).2) ∧
    (∀ (env : CicEnv D X Y V) (e : Exn), env.importResult = none →
      env.preInit = Except.ok () → (cicTryBody env).1 = Except.error e →
      (train_cic_baseline env).1 = Except.ok false ∧
      Event.tracebackPrinted ∈ (train_cic_baseline env).2) := by
  intro D X Y V
  refine ⟨?_, ?_, ?_, ?_⟩
  · intro env h
    obtain ⟨h0, hbody⟩ := nsl_ok_true env h
    obtain ⟨h1, t, s, q, p, h2, h3, h4, h5, h6, htail⟩ := nslTryBody_ok_true env hbody
    obtain ⟨h7, h8, ⟨best, rest, h9, mrec, h10⟩, h11, h12⟩ :=
      nslTrain_ok_true env _ _ _ _ _ _ htail
    have hrun := nsl_success_run env t s q p best rest mrec h0 h1 h2 h3 h4 h5 h6 h7 h8 h9 h10 h11 h12
    refine ⟨⟨t, h2⟩, ⟨s, h3⟩, ⟨rest.length, ?_⟩, ?_, ?_⟩
    · rw [hrun]; simp
    · rw [hrun]; simp
    · rw [hrun]; simp
  · intro env e himp herr
    unfold train_nsl_kdd_baseline
    rw [himp]
    rcases hb : nslTryBody env with ⟨r, tr⟩
    rw [hb] at herr
    cases r with
    | ok b => exact absurd herr (by simp)
    | error e2 => exact ⟨rfl, by simp⟩
  · intro env h
    obtain ⟨h0, h1, hbody⟩ := cic_ok_true env h
    obtain ⟨d, fl, s1, s2, h2, h3, h4, h5, htail⟩ := cicTryBody_ok_true env hbody
    obtain ⟨h6, h7, ⟨best, rest, h8, mrec, h9⟩, h10⟩ :=
      cicTrain_ok_true env _ _ _ _ _ _ htail
    have hrun := cic_success_run env d fl s1 s2 best rest mrec h0 h1 h2 h3 h4 h5 h6 h7 h8 h9 h10
    refine ⟨⟨d, h2⟩, ⟨rest.length, ?_⟩, ?_⟩
    · rw [hrun]; simp
    · rw [hrun]; simp
  · intro env e himp hpre herr
    unfold train_cic_baseline
    rw [himp, hpre]
    rcases hb : cicTryBody env with ⟨r, tr⟩
    rw [hb] at herr
    cases r with
    | ok b => exact absurd herr (by simp)
    | error e2 => exact ⟨rfl, by simp⟩

/-- C4: if the loader returns `None` for the NSL train split, the NSL test
split, or the CIC dataset, the corresponding procedure returns `False`
without ever invoking `train_all`. -/
theorem C4_missing_data_shortcircuit :
    ∀ (D X Y V : Type),
    (∀ env : NslEnv D X Y V, env.load "KDDTrain+.txt" = Except.ok none →
      (train_nsl_kdd_baseline env).1 = Except.ok false ∧
      ∀ n ex, Event.trainAllCall n ex ∉ (train_nsl_kdd_baseline env).2) ∧
    (∀ (env : NslEnv D X Y V) (t : D), env.load "KDDTrain+.txt" = Except.ok (some t) →
      env.load "KDDTest+.txt" = Except.ok none →
      (train_nsl_kdd_baseline env).1 = Except.ok false ∧
      ∀ n ex, Event.trainAllCall n ex ∉ (train_nsl_kdd_baseline env).2) ∧
    (∀ env : CicEnv D X Y V, env.preInit = Except.ok () → env.load = Except.ok none →
      (train_cic_baseline env).1 = Except.ok false ∧
      ∀ n ex, Event.trainAllCall n ex ∉ (train_cic_baseline env).2) := by
  intro D X Y V
  refine ⟨?_, ?_, ?_⟩
  · intro env hload
    constructor
    · obtain ⟨b, hb⟩ := nsl_returns_ok env
      cases b with
      | false => exact hb
      | true =>
        obtain ⟨h0, hbody⟩ := nsl_ok_true env hb
        obtain ⟨h1, t, s, q, p, h2, h3, h4, h5, h6, htail⟩ := nslTryBody_ok_true env hbody
        rw [hload] at h2
        exact absurd (Except.ok.inj h2) (by simp)
    · intro n ex h
      rcases mem_train_nsl env _ h with h | h | h | h
      · simp at h
      · simp at h
      · simp at h
      · rcases mem_nslTryBody env _ h with h | h | ⟨t, s, q, p, h2, _, _, _, h⟩
        · simp at h
        · simp at h
        · rw [hload] at h2
          exact absurd (Except.ok.inj h2) (by simp)
  · intro env t hload htest
    constructor
    · obtain ⟨b, hb⟩ := nsl_returns_ok env
      cases b with
      | false => exact hb
      | true =>
        obtain ⟨h0, hbody⟩ := nsl_ok_true env hb
        obtain ⟨h1, t2, s, q, p, h2, h3, h4, h5, h6, htail⟩ := nslTryBody_ok_true env hbody
        rw [htest] at h3
        exact absurd (Except.ok.inj h3) (by simp)
    · intro n ex h
      rcases mem_train_nsl env _ h with h | h | h | h
      · simp at h
      · simp at h
      · simp at h
      · rcases mem_nslTryBody env _ h with h | h | ⟨t2, s, q, p, _, h3, _, _, h⟩
        · simp at h
        · simp at h
        · rw [htest] at h3
          exact absurd (Except.ok.inj h3) (by simp)
  · intro env hpre hload
    constructor
    · obtain ⟨b, hb⟩ := cic_returns_ok env hpre
      cases b with
      | false => exact hb
      | true =>
        obtain ⟨h0, h1, hbody⟩ := cic_ok_true env hb
        obtain ⟨d, fl, s1, s2, h2, h3, h4, h5, htail⟩ := cicTryBody_ok_true env hbody
        rw [hload] at h2
        exact absurd (Except.ok.inj h2) (by simp)
    · intro n ex h
      rcases mem_train_cic env _ h with h | h | h | ⟨_, _, h⟩
      · simp at h
      · simp at h
      · simp at h
      · rcases mem_cicTryBody env _ h with h | ⟨d, fl, h2, _, h | ⟨s1, _, h | ⟨s2, _, h⟩⟩⟩
        · simp at h
        · simp at h
        · simp at h
        · rw [hload] at h2
          exact absurd (Except.ok.inj h2) (by simp)

/-- C5: if `evaluate_all` yields an empty validation leaderboard, the
procedure returns `False` without evaluating any model on the test split
and without attempting persistence. -/
theorem C5_empty_leaderboard_shortcircuit :
    ∀ (D X Y V : Type),
    (∀ env : NslEnv D X Y V, Event.evaluateAllCall 0 ∈ (train_nsl_kdd_baseline env).2 →
      (train_nsl_kdd_baseline env).1 = Except.ok false ∧
      (∀ name, Event.evaluateModelCall name ∉ (train_nsl_kdd_baseline env).2) ∧
      (∀ x y z, Event.saveModelsCall x y z ∉ (train_nsl_kdd_baseline env).2) ∧
      (∀ pth, Event.preSaveCall pth ∉ (train_nsl_kdd_baseline env).2)) ∧
    (∀ env : CicEnv D X Y V, Event.evaluateAllCall 0 ∈ (train_cic_baseline env).2 →
      (train_cic_baseline env).1 = Except.ok false ∧
      (∀ name, Event.evaluateModelCall name ∉ (train_cic_baseline env).2) ∧
      (∀ x y z, Event.saveModelsCall x y z ∉ (train_cic_baseline env).2)) := by
  intro D X Y V
  constructor
  · intro env h
    rcases mem_train_nsl env _ h with h | h | h | h
    · simp at h
    · simp at h
    · simp at h
    · rcases mem_nslTryBody env _ h with h | h | ⟨t, s, q, p, h2, h3, h5, h6, h⟩
      · simp at h
      · simp at h
      · rcases mem_nslTrain env _ _ _ _ _ _ _ h with
          h | ⟨lb, hev, heq⟩ | ⟨best, rest, _, h | ⟨mrec, _, h⟩ | h | h⟩
        · simp at h
        · simp only [Event.evaluateAllCall.injEq] at heq
          have hlb : lb = [] := List.length_eq_zero.mp heq.symm
          subst hlb
          refine ⟨?_, ?_, ?_, ?_⟩
          · obtain ⟨b, hb⟩ := nsl_returns_ok env
            cases b with
            | false => exact hb
            | true =>
              obtain ⟨h0, hbody⟩ := nsl_ok_true env hb
              obtain ⟨h1, t2, s2, q2, p2, h2a, h3a, h4a, h5a, h6a, htail⟩ :=
                nslTryBody_ok_true env hbody
              rw [h2] at h2a
              obtain rfl : t = t2 := Option.some.inj (Except.ok.inj h2a)
              rw [h5] at h5a
              obtain rfl : q = q2 := Except.ok.inj h5a
              obtain ⟨_, _, ⟨best, rest, hev2, _⟩, _, _⟩ :=
                nslTrain_ok_true env _ _ _ _ _ _ htail
              rw [hev] at hev2
              exact absurd (Except.ok.inj hev2) (by simp)
          · intro name hm
            rcases mem_train_nsl env _ hm with hm | hm | hm | hm
            · simp at hm
            · simp at hm
            · simp at hm
            · rcases mem_nslTryBody env _ hm with hm | hm | ⟨t2, s2, q2, p2, h2a, h3a, h5a, h6a, hm⟩
              · simp at hm
              · simp at hm
              · rw [h2] at h2a
                obtain rfl : t = t2 := Option.some.inj (Except.ok.inj h2a)
                rw [h5] at h5a
                obtain rfl : q = q2 := Except.ok.inj h5a
                rcases mem_nslTrain env _ _ _ _ _ _ _ hm with
                  hm | ⟨lb2, hev2, hm⟩ | ⟨best, rest, hev2, hm⟩
                · simp at hm
                · simp at hm
                · rw [hev] at hev2
                  exact absurd (Except.ok.inj hev2) (by simp)
          · intro x y z hm
            rcases mem_train_nsl env _ hm with hm | hm | hm | hm
            · simp at hm
            · simp at hm
            · simp at hm
            · rcases mem_nslTryBody env _ hm with hm | hm | ⟨t2, s2, q2, p2, h2a, h3a, h5a, h6a, hm⟩
              · simp at hm
              · simp at hm
              · rw [h2] at h2a
                obtain rfl : t = t2 := Option.some.inj (Except.ok.inj h2a)
                rw [h5] at h5a
                obtain rfl : q = q2 := Except.ok.inj h5a
                rcases mem_nslTrain env _ _ _ _ _ _ _ hm with
                  hm | ⟨lb2, hev2, hm⟩ | ⟨best, rest, hev2, hm⟩
                · simp at hm
                · simp at hm
                · rw [hev] at hev2
                  exact absurd (Except.ok.inj hev2) (by simp)
          · intro pth hm
            rcases mem_train_nsl env _ hm with hm | hm | hm | hm
            · simp at hm
            · simp at hm
            · simp at hm
            · rcases mem_nslTryBody env _ hm with hm | hm | ⟨t2, s2, q2, p2, h2a, h3a, h5a, h6a, hm⟩
              · simp at hm
              · simp at hm
              · rw [h2] at h2a
                obtain rfl : t = t2 := Option.some.inj (Except.ok.inj h2a)
                rw [h5] at h5a
                obtain rfl : q = q2 := Except.ok.inj h5a
                rcases mem_nslTrain env _ _ _ _ _ _ _ hm with
                  hm | ⟨lb2, hev2, hm⟩ | ⟨best, rest, hev2, hm⟩
                · simp at hm
                · simp at hm
                · rw [hev] at hev2
                  exact absurd (Except.ok.inj hev2) (by simp)
        · simp at h
        · simp [metricLoop, metricNames] at h
        · simp at h
        · simp at h
  · intro env h
    rcases mem_train_cic env _ h with h | h | h | ⟨himp, ⟨u, hpre⟩, h⟩
    · simp at h
    · simp at h
    · simp at h
    · rcases mem_cicTryBody env _ h with h | ⟨d, fl, h2, h3, h | ⟨s1, h4, h | ⟨s2, h5, h⟩⟩⟩
      · simp at h
      · simp at h
      · simp at h
      · rcases mem_cicTrain env _ _ _ _ _ _ _ h with
          h | ⟨lb, hev, heq⟩ | ⟨best, rest, _, h | ⟨mrec, _, h⟩ | h⟩
        · simp at h
        · simp only [Event.evaluateAllCall.injEq] at heq
          have hlb : lb = [] := List.length_eq_zero.mp heq.symm
          subst hlb
          refine ⟨?_, ?_, ?_⟩
          · obtain ⟨b, hb⟩ := cic_returns_ok env hpre
            cases b with
            | false => exact hb
            | true =>
              obtain ⟨h0, h1, hbody⟩ := cic_ok_true env hb
              obtain ⟨d2, fl2, s1b, s2b, h2a, h3a, h4a, h5a, htail⟩ :=
                cicTryBody_ok_true env hbody
              rw [h2] at h2a
              obtain rfl : d = d2 := Option.some.inj (Except.ok.inj h2a)
              rw [h3] at h3a
              obtain rfl : fl = fl2 := Except.ok.inj h3a
              rw [h4] at h4a
              obtain rfl : s1 = s1b := Except.ok.inj h4a
              rw [h5] at h5a
              obtain rfl : s2 = s2b := Except.ok.inj h5a
              obtain ⟨_, _, ⟨best, rest, hev2, _⟩, _⟩ :=
                cicTrain_ok_true env _ _ _ _ _ _ htail
              rw [hev] at hev2
              exact absurd (Except.ok.inj hev2) (by simp)
          · intro name hm
            rcases mem_train_cic env _ hm with hm | hm | hm | ⟨_, _, hm⟩
            · simp at hm
            · simp at hm
            · simp at hm
            · rcases mem_cicTryBody env _ hm with hm | ⟨d2, fl2, h2a, h3a, hm | ⟨s1b, h4a, hm | ⟨s2b, h5a, hm⟩⟩⟩
              · simp at hm
              · simp at hm
              · simp at hm
              · rw [h2] at h2a
                obtain rfl : d = d2 := Option.some.inj (Except.ok.inj h2a)
                rw [h3] at h3a
                obtain rfl : fl = fl2 := Except.ok.inj h3a
                rw [h4] at h4a
                obtain rfl : s1 = s1b := Except.ok.inj h4a
                rw [h5] at h5a
                obtain rfl : s2 = s2b := Except.ok.inj h5a
                rcases mem_cicTrain env _ _ _ _ _ _ _ hm with
                  hm | ⟨lb2, hev2, hm⟩ | ⟨best, rest, hev2, hm⟩
                · simp at hm
                · simp at hm
                · rw [hev] at hev2
                  exact absurd (Except.ok.inj hev2) (by simp)
          · intro x y z hm
            rcases mem_train_cic env _ hm with hm | hm | hm | ⟨_, _, hm⟩
            · simp at hm
            · simp at hm
            · simp at hm
            · rcases mem_cicTryBody env _ hm with hm | ⟨d2, fl2, h2a, h3a, hm | ⟨s1b, h4a, hm | ⟨s2b, h5a, hm⟩⟩⟩
              · simp at hm
              · simp at hm
              · simp at hm
              · rw [h2] at h2a
                obtain rfl : d = d2 := Option.some.inj (Except.ok.inj h2a)
                rw [h3] at h3a
                obtain rfl : fl = fl2 := Except.ok.inj h3a
                rw [h4] at h4a
                obtain rfl : s1 = s1b := Except.ok.inj h4a
                rw [h5] at h5a
                obtain rfl : s2 = s2b := Except.ok.inj h5a
                rcases mem_cicTrain env _ _ _ _ _ _ _ hm with
                  hm | ⟨lb2, hev2, hm⟩ | ⟨best, rest, hev2, hm⟩
                · simp at hm
                · simp at hm
                · rw [hev] at hev2
                  exact absurd (Except.ok.inj hev2) (by simp)
        · simp at h
        · simp [metricLoop, metricNames] at h
        · simp at h

/-- C10: if the metric record of the best model lacks any of the four
metric keys, the procedure substitutes NaN for the missing value (the
printed value is the NaN marker) and continues; missing keys never cause a
`False` return — the run still returns `True`. -/
theorem C10_missing_metric_keys :
    ∀ (D X Y V : Type),
    (∀ (env : NslEnv D X Y V) (t s : D) (q : List X × List X × List Y × List Y)
        (p : List X × List Y) (best : Row V) (rest : List (Row V))
        (mrec : List (String × V)),
      env.importResult = none → env.analyzerInit = Except.ok () →
      env.load "KDDTrain+.txt" = Except.ok (some t) →
      env.load "KDDTest+.txt" = Except.ok (some s) →
      env.preInit = Except.ok () → env.fit_transform t = Except.ok q →
      env.transform s = Except.ok p → env.baselineInit = Except.ok () →
      env.train_all q.1 q.2.2.1 (if 5000 < q.1.length then ["svm_linear"] else []) = Except.ok () →
      env.evaluate_all q.2.1 q.2.2.2 = Except.ok (best :: rest) →
      env.evaluate_model best.model_name p.1 p.2 = Except.ok mrec →
      env.save_models nslModelsDir nslResultsDir "_nsl" = Except.ok () →
      env.preSave nslPrePath = Except.ok () →
      (train_nsl_kdd_baseline env).1 = Except.ok true ∧
      ∀ m ∈ metricNames,
        Event.metricPrinted m (mrec.lookup m |>.isNone) ∈ (train_nsl_kdd_baseline env).2) ∧
    (∀ (env : CicEnv D X Y V) (d : D) (fl : List X × List Y)
        (s1 s2 : List X × List X × List Y × List Y) (best : Row V)
        (rest : List (Row V)) (mrec : List (String × V)),
      env.importResult = none → env.preInit = Except.ok () →
      env.load = Except.ok (some d) → env.fit_transform d = Except.ok fl →
      env.split 2 5 42 fl.1 fl.2 = Except.ok s1 →
      env.split 1 2 42 s1.2.1 s1.2.2.2 = Except.ok s2 →
      env.baselineInit = Except.ok () →
      env.train_all s1.1 s1.2.2.1 (if 10000 < s1.1.length then ["svm_linear", "knn"] else []) = Except.ok () →
      env.evaluate_all s2.1 s2.2.2.1 = Except.ok (best :: rest) →
      env.evaluate_model best.model_name s2.2.1 s2.2.2.2 = Except.ok mrec →
      env.save_models cicModelsDir cicResultsDir "_cic" = Except.ok () →
      (train_cic_baseline env).1 = Except.ok true ∧
      ∀ m ∈ metricNames,
        Event.metricPrinted m (mrec.lookup m |>.isNone) ∈ (train_cic_baseline env).2) := by
  intro D X Y V
  constructor
  · intro env t s q p best rest mrec h0 h1 h2 h3 h4 h5 h6 h7 h8 h9 h10 h11 h12
    have hrun := nsl_success_run env t s q p best rest mrec h0 h1 h2 h3 h4 h5 h6 h7 h8 h9 h10 h11 h12
    constructor
    · rw [hrun]
    · intro m hm
      have hmem : Event.metricPrinted m (mrec.lookup m |>.isNone) ∈ metricLoop mrec := by
        unfold metricLoop
        exact List.mem_map_of_mem _ hm
      rw [hrun]
      simp only [List.mem_cons]
      refine Or.inr (Or.inr (Or.inr (Or.inr (Or.inr (Or.inr ?_)))))
      exact List.mem_append_left _ hmem
  · intro env d fl s1 s2 best rest mrec h0 h1 h2 h3 h4 h5 h6 h7 h8 h9 h10
    have hrun := cic_success_run env d fl s1 s2 best rest mrec h0 h1 h2 h3 h4 h5 h6 h7 h8 h9 h10
    constructor
    · rw [hrun]
    · intro m hm
      have hmem : Event.metricPrinted m (mrec.lookup m |>.isNone) ∈ metricLoop mrec := by
        unfold metricLoop
        exact List.mem_map_of_mem _ hm
      rw [hrun]
      simp only [List.mem_cons]
      refine Or.inr (Or.inr (Or.inr (Or.inr (Or.inr (Or.inr (Or.inr ?_))))))
      exact List.mem_append_left _ hmem

/-- Recogniser for splitter-call events. -/
def isSplitCall : Event → Bool
  | Event.splitCall _ _ _ _ => true
  | _ => false

/-- C6: the CIC procedure partitions the full feature/label set by exactly
two sequential stratified splitter calls — `test_size = 2/5, seed 42`
producing the training part, then `test_size = 1/2, seed 42` on the
remaining 40% — and, for splitter outcomes satisfying the stratified
contract, the result is a 60/20/20 train/validation/test partition (within
rounding) that preserves class proportions in every split (within
stratified-split rounding). -/
theorem C6_cic_split_structure {D X Y V : Type} [DecidableEq Y]
    (env : CicEnv D X Y V) (d : D) (fl : List X × List Y)
    (s1 s2 : List X × List X × List Y × List Y)
    (h0 : env.importResult = none) (h1 : env.preInit = Except.ok ())
    (h2 : env.load = Except.ok (some d)) (h3 : env.fit_transform d = Except.ok fl)
    (h4 : env.split 2 5 42 fl.1 fl.2 = Except.ok s1)
    (hs1 : stratified 2 5 fl.1 fl.2 s1)
    (h5 : env.split 1 2 42 s1.2.1 s1.2.2.2 = Except.ok s2)
    (hs2 : stratified 1 2 s1.2.1 s1.2.2.2 s2) :
    ((train_cic_baseline env).2.filter isSplitCall
        = [Event.splitCall 2 5 42 fl.1.length, Event.splitCall 1 2 42 s1.2.1.length]) ∧
    (5 * s1.1.length ≤ 3 * fl.1.length ∧ 3 * fl.1.length ≤ 5 * s1.1.length + 5) ∧
    (fl.1.length ≤ 5 * s2.1.length + 5 ∧ 5 * s2.1.length ≤ fl.1.length + 5) ∧
    (fl.1.length ≤ 5 * s2.2.1.length ∧ 5 * s2.2.1.length ≤ fl.1.length + 5) ∧
    (∀ c ∈ fl.2,
      (3 * fl.2.count c ≤ 5 * s1.2.2.1.count c + 5 ∧
        5 * s1.2.2.1.count c ≤ 3 * fl.2.count c + 5) ∧
      (2 * fl.2.count c ≤ 10 * s2.2.2.1.count c + 15 ∧
        10 * s2.2.2.1.count c ≤ 2 * fl.2.count c + 15) ∧
      (2 * fl.2.count c ≤ 10 * s2.2.2.2.count c + 15 ∧
        10 * s2.2.2.2.count c ≤ 2 * fl.2.count c + 15)) := by
  obtain ⟨A1, A2, A3, A4, A5, A6, A7, A8, A9⟩ := hs1
  obtain ⟨B1, B2, B3, B4, B5, B6, B7, B8, B9⟩ := hs2
  simp only [ceilDiv] at A5 B5
  refine ⟨?_, by omega, by omega, by omega, ?_⟩
  · obtain ⟨tail, htr, htail⟩ := cic_splits_run env d fl s1 s2 h0 h1 h2 h3 h4 h5
    have hnil : tail.filter isSplitCall = [] := by
      rw [List.filter_eq_nil_iff]
      intro a ha
      rcases htail a ha with rfl | hmem
      · simp [isSplitCall]
      · rcases mem_cicTrain env _ _ _ _ _ _ _ hmem with
          hm | ⟨lb, _, hm⟩ | ⟨best, rest, _, hm | ⟨mrec, _, hm⟩ | hm⟩
        · subst hm; simp [isSplitCall]
        · subst hm; simp [isSplitCall]
        · subst hm; simp [isSplitCall]
        · simp only [metricLoop, List.mem_map] at hm
          obtain ⟨m, _, rfl⟩ := hm
          simp [isSplitCall]
        · subst hm; simp [isSplitCall]
    rw [htr]
    simp [isSplitCall, hnil]
  · intro c hc
    have hA8 := A8 c hc
    have hA9 := A9 c hc
    by_cases hcT : c ∈ s1.2.2.2
    · have hB8 := B8 c hcT
      have hB9 := B9 c hcT
      refine ⟨⟨?_, ?_⟩, ⟨?_, ?_⟩, ⟨?_, ?_⟩⟩ <;> omega
    · have hce : s1.2.2.2.count c = 0 := List.count_eq_zero.mpr hcT
      have hcv : s2.2.2.1.count c = 0 := List.count_eq_zero.mpr fun hin => hcT (B6 c hin)
      have hct : s2.2.2.2.count c = 0 := List.count_eq_zero.mpr fun hin => hcT (B7 c hin)
      refine ⟨⟨?_, ?_⟩, ⟨?_, ?_⟩, ⟨?_, ?_⟩⟩ <;> omega

/-- NSL behaviour whose training-data load returns Python `None`. -/
def wEnvN4 : NslEnv Unit Nat Nat Nat :=
  { wEnvN with load := fun _ => Except.ok none }

/-- NSL behaviour whose `evaluate_all` returns an empty leaderboard. -/
def wEnvN5 : NslEnv Unit Nat Nat Nat :=
  { wEnvN with evaluate_all := fun _ _ => Except.ok [] }

/-- NSL behaviour whose `evaluate_model` returns a record with no metric
keys at all. -/
def wEnvN10 : NslEnv Unit Nat Nat Nat :=
  { wEnvN with evaluate_model := fun _ _ _ => Except.ok [] }

/-- C3 (witness): at a concrete succeeding run with 3 training rows, the
exclusion list the run passed is the empty list, as the rule demands. -/
theorem C3_witness : ([] : List String) = if 5000 < 3 then ["svm_linear"] else [] :=
  (C3_exclusion_policy Unit Nat Nat Nat).1 wEnvN 3 [] (by decide)

/-- C4 (witness): with the loader returning `None` for the train split, the
NSL procedure returns `False`. -/
theorem C4_witness : (train_nsl_kdd_baseline wEnvN4).1 = Except.ok false :=
  ((C4_missing_data_shortcircuit Unit Nat Nat Nat).1 wEnvN4 rfl).1

/-- C5 (witness): with `evaluate_all` returning an empty leaderboard, the
NSL procedure returns `False`. -/
theorem C5_witness : (train_nsl_kdd_baseline wEnvN5).1 = Except.ok false :=
  ((C5_empty_leaderboard_shortcircuit Unit Nat Nat Nat).1 wEnvN5 (by decide)).1

/-- C6 (witness): on a concrete 5-row dataset with a splitter outcome
satisfying the stratified contract, the CIC run records exactly the two
split calls with test fractions 2/5 and 1/2 and seed 42. -/
theorem C6_witness :
    (train_cic_baseline wEnvC).2.filter isSplitCall
      = [Event.splitCall 2 5 42 5, Event.splitCall 1 2 42 2] :=
  (C6_cic_split_structure wEnvC () ([0, 1, 2, 3, 4], [0, 0, 0, 1, 1])
    ([0, 1, 3], [2, 4], [0, 0, 1], [0, 1]) ([2], [4], [0], [1])
    rfl rfl rfl rfl rfl (by decide) rfl (by decide)).1

/-- C7 (witness): in the concrete succeeding run, the model evaluated on
the test set is the first leaderboard row's. -/
theorem C7_witness :
    ∃ best rest, [(⟨"random_forest", 1, 1, 1, 1⟩ : Row Nat)] = best :: rest ∧
      "random_forest" = best.model_name :=
  (C7_best_model_is_first_row Unit Nat Nat Nat).1 wEnvN
    [⟨"random_forest", 1, 1, 1, 1⟩] rfl "random_forest" (by decide)

/-- C8 (witness): the concrete succeeding NSL run attempted persistence. -/
theorem C8_witness :
    Event.saveModelsCall nslModelsDir nslResultsDir "_nsl" ∈ (train_nsl_kdd_baseline wEnvN).2 :=
  ((C8_success_invariants Unit Nat Nat Nat).1 wEnvN rfl).2.2.2.1

/-- C9 (witness): the save call of the concrete NSL run used exactly the
NSL target directories. -/
theorem C9_witness :
    nslModelsDir = nslModelsDir ∧ nslResultsDir = nslResultsDir ∧ "_nsl" = "_nsl" :=
  (C9_output_path_layout Unit Nat Nat Nat).2.2.1 wEnvN nslModelsDir nslResultsDir "_nsl"
    (by decide)

/-- C10 (witness): with an entirely keyless metric record, the NSL
procedure still returns `True`. -/
theorem C10_witness : (train_nsl_kdd_baseline wEnvN10).1 = Except.ok true :=
  ((C10_missing_metric_keys Unit Nat Nat Nat).1 wEnvN10 () ()
    ([10, 11, 12], [13], [0, 1, 0], [1]) ([14], [1])
    ⟨"random_forest", 1, 1, 1, 1⟩ [] []
    rfl rfl rfl rfl rfl rfl rfl rfl rfl rfl rfl rfl rfl).1

end BaselineTraining
